import Mathlib

/-!
# Verification of the chat-session persistence and identity model of `LLM.py`

Shallow embedding of the Streamlit chat application `src/LLM.py`.

The Python program keeps its state in `st.session_state`:
* `all_chats` — the in-memory store, a Python list of chat dicts;
* `current_chat` — the current chat dict;
* `editing_chat` — `None` or the id of the record being edited;
and the on-disk file `chat_history.json`.

Python dicts and lists are mutable heap objects, and the program takes
*shallow* copies (`dict.copy()`), so two record dicts can share one
messages list.  The embedding therefore keeps an explicit heap of
message lists (`List (List Message)`, addressed by `Nat`), and a record
object (`RecordObj`) stores the *address* of its messages list.  Record
dicts themselves are never aliased by the program (every assignment into
`current_chat` or the store goes through `.copy()` or a fresh literal),
so records are represented by value.

Machine-independent data (strings, lists) is modelled directly; the
external `json` library is modelled by a JSON value AST, with the file
state distinguishing a missing file, an unparseable one, and one holding
a JSON value.
-/

namespace LLMChat

/-- A chat turn: `{"role": ..., "content": ...}` in `LLM.py`.  The code
only ever writes the role strings `"user"` and `"ai"`, but the dict
field itself is an arbitrary string. -/
structure Message where
  role : String
  content : String
  deriving DecidableEq, Repr

/-- The *value* of a chat record dict: id, title and the full message
sequence.  This is what Python `==` (and hence the `in` membership test
on `all_chats`) compares. -/
structure ChatRecord where
  id : String
  title : String
  messages : List Message
  deriving DecidableEq, Repr

/-- A chat record *object*: a dict whose `'messages'` entry is a
reference (heap address) to a mutable list.  `dict.copy()` copies the
`id`/`title` strings and the `msgs` reference, not the list. -/
structure RecordObj where
  id : String
  title : String
  msgs : Nat
  deriving DecidableEq, Repr

/-- JSON values, as produced/consumed by `json.dump` / `json.load`. -/
inductive Json where
  | null : Json
  | bool (b : Bool) : Json
  | num (n : Int) : Json
  | str (s : String) : Json
  | arr (l : List Json) : Json
  | obj (l : List (String × Json)) : Json

/-- State of the file `chat_history.json`: missing (`FileNotFoundError`),
unparseable (`json.JSONDecodeError`), or holding a JSON value. -/
inductive FileState where
  | missing : FileState
  | corrupt : FileState
  | content (j : Json) : FileState

/-- Serialization of one message dict, as `json.dump` lays it out. -/
def encodeMessage (m : Message) : Json :=
  Json.obj [("role", Json.str m.role), ("content", Json.str m.content)]

/-- Serialization of one chat record dict. -/
def encodeChat (c : ChatRecord) : Json :=
  Json.obj [("id", Json.str c.id), ("title", Json.str c.title),
            ("messages", Json.arr (c.messages.map encodeMessage))]

/-- Serialization of the full store list. -/
def encodeChats (l : List ChatRecord) : Json :=
  Json.arr (l.map encodeChat)

/-- Correspondence between a JSON value and a message, following the
persisted layout `\x7brole: string, content: string\x7d`. -/
def decodeMessage : Json → Option Message
  | Json.obj [("role", Json.str r), ("content", Json.str c)] => some ⟨r, c⟩
  | _ => none

/-- Decode a list of JSON values as messages, failing if any fails. -/
def decodeMessages : List Json → Option (List Message)
  | [] => some []
  | j :: rest =>
    match decodeMessage j, decodeMessages rest with
    | some m, some ms => some (m :: ms)
    | _, _ => none

/-- Correspondence between a JSON value and a chat record, following the
persisted layout `\x7bid: string, title: string, messages: [...]\x7d`. -/
def decodeChat : Json → Option ChatRecord
  | Json.obj [("id", Json.str i), ("title", Json.str t),
              ("messages", Json.arr ms)] =>
    match decodeMessages ms with
    | some l => some ⟨i, t, l⟩
    | none => none
  | _ => none

/-- Decode a list of JSON values as chat records. -/
def decodeChatList : List Json → Option (List ChatRecord)
  | [] => some []
  | j :: rest =>
    match decodeChat j, decodeChatList rest with
    | some c, some cs => some (c :: cs)
    | _, _ => none

/-- Correspondence between a JSON value and a store contents (a JSON
array of record objects). -/
def decodeChats : Json → Option (List ChatRecord)
  | Json.arr l => decodeChatList l
  | _ => none

/-- `save_chats` (LLM.py lines 52–54): overwrite the file with the JSON
serialization of the full list. -/
def save_chats (chats : List ChatRecord) : FileState :=
  FileState.content (encodeChats chats)

/-- `load_chats` (LLM.py lines 45–50): `json.load` the file; on
`FileNotFoundError` or `json.JSONDecodeError` return `[]`.  The raw
parsed JSON value is returned without shape validation. -/
def load_chats : FileState → Json
  | FileState.missing => Json.arr []
  | FileState.corrupt => Json.arr []
  | FileState.content j => j

theorem decodeMessage_encodeMessage (m : Message) :
    decodeMessage (encodeMessage m) = some m := rfl

theorem decodeMessages_map_encodeMessage (ms : List Message) :
    decodeMessages (ms.map encodeMessage) = some ms := by
  induction ms with
  | nil => rfl
  | cons m rest ih =>
    simp [decodeMessages, decodeMessage_encodeMessage, ih]

theorem decodeChat_encodeChat (c : ChatRecord) :
    decodeChat (encodeChat c) = some c := by
  cases c with
  | mk i t ms =>
    simp [encodeChat, decodeChat, decodeMessages_map_encodeMessage]

theorem decodeChatList_map_encodeChat (l : List ChatRecord) :
    decodeChatList (l.map encodeChat) = some l := by
  induction l with
  | nil => rfl
  | cons c rest ih =>
    simp [decodeChatList, decodeChat_encodeChat, ih]

/-- C3: for every sequence of chat records, persisting with `save_chats`
and reading back with `load_chats` (no external interference in
between) yields a JSON value that denotes exactly the persisted
sequence: the round-trip law. -/
theorem C3_persist_then_load_roundtrip (l : List ChatRecord) :
    decodeChats (load_chats (save_chats l)) = some l := by
  simp [save_chats, load_chats, encodeChats, decodeChats,
        decodeChatList_map_encodeChat]

/-- C4: `load_chats` on a missing file and on a malformed (unparseable)
file returns the empty list in both cases; the `try/except` over
`FileNotFoundError` and `json.JSONDecodeError` makes the function total
on these states, so no exception reaches the caller. -/
theorem C4_load_missing_or_malformed_is_empty :
    load_chats FileState.missing = Json.arr [] ∧
    load_chats FileState.corrupt = Json.arr [] ∧
    decodeChats (load_chats FileState.missing) = some [] ∧
    decodeChats (load_chats FileState.corrupt) = some [] := by
  refine ⟨rfl, rfl, rfl, rfl⟩

/-- The session state of `main` plus the file: the heap of mutable
message lists, `all_chats`, `current_chat`, `editing_chat` (a Python
`None`-or-string), and the on-disk file. -/
structure AppState where
  heap : List (List Message)
  all_chats : List RecordObj
  current_chat : RecordObj
  editing_chat : Option String
  file : FileState

/-- The value a record object denotes, dereferencing its messages
address in the heap (Python `==` on record dicts compares exactly
this). -/
def recordValue (h : List (List Message)) (r : RecordObj) : ChatRecord :=
  ⟨r.id, r.title, h.getD r.msgs []⟩

/-- The Python membership test `current_chat in all_chats`: `in` uses
`==` on dicts, i.e. full-value equality of id, title and the message
list contents. -/
def containsValue (h : List (List Message)) (chats : List RecordObj)
    (r : RecordObj) : Bool :=
  chats.any (fun c => decide (recordValue h c = recordValue h r))

/-- `list.append(msg)` on the heap cell at `addr`. -/
def appendMsg (h : List (List Message)) (addr : Nat) (m : Message) :
    List (List Message) :=
  h.set addr (h.getD addr [] ++ [m])

/-- Every record's messages address is a live heap cell. -/
def wf (s : AppState) : Prop :=
  s.current_chat.msgs < s.heap.length ∧
  ∀ r ∈ s.all_chats, r.msgs < s.heap.length

/-- `generate_chat_title` (LLM.py lines 63–64):
`prompt[:30] + "..." if len(prompt) > 30 else prompt`. -/
def generate_chat_title (prompt : String) : String :=
  if prompt.length > 30 then prompt.take 30 ++ "..." else prompt

/-- A wall-clock instant at second granularity, as read by
`datetime.now()`.  Python's `datetime` guarantees
`1 ≤ year ≤ 9999`, `1 ≤ month ≤ 12`, `1 ≤ day ≤ 31`, `hour ≤ 23`,
`minute ≤ 59`, `second ≤ 59`. -/
structure DateTime where
  year : Nat
  month : Nat
  day : Nat
  hour : Nat
  minute : Nat
  second : Nat
  deriving DecidableEq, Repr

/-- The ranges `datetime` enforces on its fields. -/
def DateTime.valid (t : DateTime) : Prop :=
  1 ≤ t.year ∧ t.year ≤ 9999 ∧ 1 ≤ t.month ∧ t.month ≤ 12 ∧
  1 ≤ t.day ∧ t.day ≤ 31 ∧ t.hour ≤ 23 ∧ t.minute ≤ 59 ∧ t.second ≤ 59

instance (t : DateTime) : Decidable t.valid := by
  unfold DateTime.valid
  infer_instance

/-- The decimal digit character for `r % 10`. -/
def digitChar (r : Nat) : Char :=
  if r = 0 then '0' else if r = 1 then '1' else if r = 2 then '2'
  else if r = 3 then '3' else if r = 4 then '4' else if r = 5 then '5'
  else if r = 6 then '6' else if r = 7 then '7' else if r = 8 then '8'
  else '9'

/-- The `w` low decimal digits of `n`, zero-padded to exactly width `w`.
For `n < 10 ^ w` this is the zero-padded decimal rendering of `n`, which
is what `strftime` emits for each field of a valid `datetime`. -/
def natToFixed : Nat → Nat → List Char
  | 0, _ => []
  | w + 1, n => natToFixed w (n / 10) ++ [digitChar (n % 10)]

/-- Modelled from the spec: `datetime.now().strftime("%Y%m%d%H%M%S")`
(the external `datetime` library's formatting, not code under `src/`):
the zero-padded concatenation 4-digit year, then 2-digit month, day,
hour, minute, second.  Faithful on all valid datetimes (`strftime`
zero-pads `%Y` to 4 and the rest to 2, and `datetime` caps the year at
9999). -/
def formatTimestamp (t : DateTime) : String :=
  String.mk (natToFixed 4 t.year ++ natToFixed 2 t.month ++
             natToFixed 2 t.day ++ natToFixed 2 t.hour ++
             natToFixed 2 t.minute ++ natToFixed 2 t.second)

/-- `create_new_chat` (LLM.py lines 56–61): rebind `current_chat` to a
fresh dict with a timestamp id, the placeholder title and a fresh empty
messages list (a new heap cell). -/
def create_new_chat (s : AppState) (now : DateTime) : AppState :=
  { s with heap := s.heap ++ [[]],
           current_chat := ⟨formatTimestamp now, "New Chat", s.heap.length⟩ }

/-- The "➕ New Chat" button handler (LLM.py lines 107–109):
`create_new_chat()` then `editing_chat = None`. -/
def newChatClick (s : AppState) (now : DateTime) : AppState :=
  { create_new_chat s now with editing_chat := none }

/-- The history-button handler (LLM.py lines 115–122):
`current_chat = chat.copy()` — a shallow dict copy, sharing the
messages list reference — and `editing_chat = None`. -/
def selectChat (s : AppState) (chat : RecordObj) : AppState :=
  { s with current_chat := chat, editing_chat := none }

/-- `handle_chat_edit` via the "✏️" button (LLM.py lines 66–67, 124–125):
record the id being edited. -/
def handle_chat_edit (s : AppState) (chatId : String) : AppState :=
  { s with editing_chat := some chatId }

/-- The auto-save / "💾 Save Chat" body shared by LLM.py lines 200–202
and 209–211: if the current record is not in the store by value, append
a shallow copy (same messages address) and persist the whole store's
current values; otherwise do nothing. -/
def commitCurrent (h : List (List Message)) (chats : List RecordObj)
    (cur : RecordObj) (f : FileState) : List RecordObj × FileState :=
  if containsValue h chats cur then (chats, f)
  else (chats ++ [cur],
        FileState.content (encodeChats ((chats ++ [cur]).map (recordValue h))))

/-- The heap after a completed exchange: the user turn then the model
turn appended to the current record's messages list (LLM.py lines
180–183 and 190–193). -/
def postExchangeHeap (s : AppState) (q t : String) : List (List Message) :=
  appendMsg (appendMsg s.heap s.current_chat.msgs ⟨"user", q⟩)
    s.current_chat.msgs ⟨"ai", t⟩

/-- The current record after a completed exchange: the title is derived
from the question exactly when the messages list now has length 2
(LLM.py lines 196–197). -/
def postExchangeCur (s : AppState) (q t : String) : RecordObj :=
  if ((postExchangeHeap s q t).getD s.current_chat.msgs []).length = 2 then
    { s.current_chat with title := generate_chat_title q }
  else s.current_chat

/-- The submission handler (LLM.py lines 176–204).  `question` is the
`st.chat_input` result (`""` stands for Python-falsy: `None` or the
empty string); `modelOk` is the truthiness of `st.session_state.model`;
`gen` is the outcome of `generate_response`: `none` when the external
call raised (the `except` branch returns `None`), `some t` when it
returned text `t`.  The user turn is appended *before* the call; the
`if response:` test is Python truthiness, so empty returned text is
treated like a failure. -/
def submitQuestion (s : AppState) (question : String) (modelOk : Bool)
    (gen : Option String) : AppState :=
  if question ≠ "" ∧ modelOk = true then
    match gen with
    | none => { s with heap := appendMsg s.heap s.current_chat.msgs ⟨"user", question⟩ }
    | some t =>
      if t = "" then
        { s with heap := appendMsg s.heap s.current_chat.msgs ⟨"user", question⟩ }
      else
        { heap := postExchangeHeap s question t,
          all_chats := (commitCurrent (postExchangeHeap s question t)
            s.all_chats (postExchangeCur s question t) s.file).1,
          current_chat := postExchangeCur s question t,
          editing_chat := s.editing_chat,
          file := (commitCurrent (postExchangeHeap s question t)
            s.all_chats (postExchangeCur s question t) s.file).2 }
  else s

/-- The "💾 Save Chat" button handler (LLM.py lines 207–212): the button
exists only when the current record's messages list is non-empty; on
click, append-if-absent and persist. -/
def saveChatClick (s : AppState) : AppState :=
  if s.heap.getD s.current_chat.msgs [] ≠ [] then
    { s with
      all_chats := (commitCurrent s.heap s.all_chats s.current_chat s.file).1,
      file := (commitCurrent s.heap s.all_chats s.current_chat s.file).2 }
  else s

/-- The "💾 Save Changes" handler in edit mode (LLM.py lines 131–163):
when `editing_chat` is truthy and `next(...)` finds the first stored
record with that id, rebind that dict's title and messages (the staged
`new_messages` is a freshly built list, so a new heap cell), persist the
whole store, and leave edit mode. -/
def saveChanges (s : AppState) (newTitle : String)
    (newMsgs : List Message) : AppState :=
  match s.editing_chat with
  | none => s
  | some eid =>
    if eid = "" then s
    else
      match s.all_chats.findIdx? (fun c => c.id = eid) with
      | none => s
      | some i =>
        let old := s.all_chats.getD i ⟨"", "", 0⟩
        let h' := s.heap ++ [newMsgs]
        let chats' := s.all_chats.set i
          { old with title := newTitle, msgs := s.heap.length }
        { s with heap := h',
                 all_chats := chats',
                 file := FileState.content (encodeChats (chats'.map (recordValue h'))),
                 editing_chat := none }

/-! ## Basic reduction lemmas for the embedded handlers -/

theorem appendMsg_length (h : List (List Message)) (a : Nat) (m : Message) :
    (appendMsg h a m).length = h.length := by
  simp [appendMsg]

theorem appendMsg_getD_self (h : List (List Message)) (a : Nat) (m : Message)
    (ha : a < h.length) :
    (appendMsg h a m).getD a [] = h.getD a [] ++ [m] := by
  simp [appendMsg, List.getD, List.getElem?_set_self, ha]

theorem appendMsg_getD_ne (h : List (List Message)) (a b : Nat) (m : Message)
    (hab : b ≠ a) :
    (appendMsg h a m).getD b [] = h.getD b [] := by
  simp [appendMsg, List.getD, List.getElem?_set_ne (Ne.symm hab)]

theorem postExchangeHeap_length (s : AppState) (q t : String) :
    (postExchangeHeap s q t).length = s.heap.length := by
  simp [postExchangeHeap, appendMsg_length]

theorem postExchangeHeap_getD_self (s : AppState) (q t : String)
    (ha : s.current_chat.msgs < s.heap.length) :
    (postExchangeHeap s q t).getD s.current_chat.msgs [] =
      s.heap.getD s.current_chat.msgs [] ++ [⟨"user", q⟩, ⟨"ai", t⟩] := by
  rw [postExchangeHeap, appendMsg_getD_self, appendMsg_getD_self _ _ _ ha]
  · simp
  · rw [appendMsg_length]; exact ha

theorem postExchangeHeap_getD_ne (s : AppState) (q t : String) (b : Nat)
    (hb : b ≠ s.current_chat.msgs) :
    (postExchangeHeap s q t).getD b [] = s.heap.getD b [] := by
  rw [postExchangeHeap, appendMsg_getD_ne _ _ _ _ hb, appendMsg_getD_ne _ _ _ _ hb]

theorem postExchangeCur_of_nonempty (s : AppState) (q t : String)
    (ha : s.current_chat.msgs < s.heap.length)
    (hne : s.heap.getD s.current_chat.msgs [] ≠ []) :
    postExchangeCur s q t = s.current_chat := by
  rw [postExchangeCur, if_neg]
  rw [postExchangeHeap_getD_self s q t ha]
  simp only [List.length_append, List.length_cons, List.length_nil]
  intro hlen
  exact hne (List.eq_nil_of_length_eq_zero (by omega))

theorem postExchangeCur_of_fresh (s : AppState) (q t : String)
    (ha : s.current_chat.msgs < s.heap.length)
    (hfresh : s.heap.getD s.current_chat.msgs [] = []) :
    postExchangeCur s q t = { s.current_chat with title := generate_chat_title q } := by
  rw [postExchangeCur, if_pos]
  rw [postExchangeHeap_getD_self s q t ha, hfresh]
  rfl

theorem containsValue_of_mem (h : List (List Message)) (chats : List RecordObj)
    (r : RecordObj) (hmem : r ∈ chats) : containsValue h chats r = true := by
  simp only [containsValue, List.any_eq_true]
  exact ⟨r, hmem, by simp⟩

theorem submitQuestion_success (s : AppState) (q t : String)
    (hq : q ≠ "") (ht : t ≠ "") :
    submitQuestion s q true (some t) =
      { heap := postExchangeHeap s q t,
        all_chats := (commitCurrent (postExchangeHeap s q t) s.all_chats
          (postExchangeCur s q t) s.file).1,
        current_chat := postExchangeCur s q t,
        editing_chat := s.editing_chat,
        file := (commitCurrent (postExchangeHeap s q t) s.all_chats
          (postExchangeCur s q t) s.file).2 } := by
  simp [submitQuestion, hq, ht]

theorem submitQuestion_gen_failed (s : AppState) (q : String) (hq : q ≠ "") :
    submitQuestion s q true none =
      { s with heap := appendMsg s.heap s.current_chat.msgs ⟨"user", q⟩ } := by
  simp [submitQuestion, hq]

/-! ## C8: empty vs whitespace-only submissions -/

/-- C8 (counterexample): the claim also covers whitespace-only
questions, but the guard `if question and st.session_state.model:` uses
Python truthiness, and `" "` is truthy: submitting `" "` appends a user
turn and a model turn (so state *is* mutated), and the result depends on
the generation outcome (so the generation capability *is* invoked). -/
theorem C8_counterexample :
    (submitQuestion ⟨[[]], [], ⟨"20250101000000", "New Chat", 0⟩, none,
        FileState.missing⟩ " " true (some "ok")).heap.getD 0 [] =
      [⟨"user", " "⟩, ⟨"ai", "ok"⟩] ∧
    (submitQuestion ⟨[[]], [], ⟨"20250101000000", "New Chat", 0⟩, none,
        FileState.missing⟩ " " true (some "A")).heap ≠
      (submitQuestion ⟨[[]], [], ⟨"20250101000000", "New Chat", 0⟩, none,
        FileState.missing⟩ " " true (some "B")).heap := by
  refine ⟨by decide, by decide⟩

/-- C8 (amended): an *empty* submitted question (the falsy cases of
`st.chat_input`: `None` or `""`) mutates nothing — the handler returns
the state unchanged for every model availability and every generation
outcome, so the generation capability is not consulted.  Whitespace-only
questions are NOT rejected: they are processed as ordinary questions
(see the counterexample). -/
theorem C8_empty_question_noop (s : AppState) (modelOk : Bool)
    (gen : Option String) : submitQuestion s "" modelOk gen = s := by
  simp [submitQuestion]

/-! ## C9: ids of newly created records -/

theorem digitChar_isDigit (r : Nat) : (digitChar r).isDigit = true := by
  unfold digitChar
  repeat' split
  all_goals decide

theorem natToFixed_length (w n : Nat) : (natToFixed w n).length = w := by
  induction w generalizing n with
  | zero => rfl
  | succ w ih => simp [natToFixed, ih]

theorem natToFixed_all_isDigit (w n : Nat) :
    (natToFixed w n).all Char.isDigit = true := by
  induction w generalizing n with
  | zero => rfl
  | succ w ih => simp [natToFixed, ih, digitChar_isDigit]

/-- C9: a record created by the "new chat" action has as id the creation
instant formatted as the 14-character digit string `%Y%m%d%H%M%S`, the
placeholder title `"New Chat"` and an empty messages list (a fresh heap
cell), and the id depends only on the creation instant, so two records
created within the same second (equal `DateTime` at second granularity)
receive equal ids, whatever the rest of the state. -/
theorem C9_new_chat_id_title_messages (s s2 : AppState) (t : DateTime)
    (_hv : t.valid) :
    (newChatClick s t).current_chat.id = formatTimestamp t ∧
    (formatTimestamp t).length = 14 ∧
    (formatTimestamp t).toList.all Char.isDigit = true ∧
    (newChatClick s t).current_chat.title = "New Chat" ∧
    (newChatClick s t).heap.getD (newChatClick s t).current_chat.msgs [] = [] ∧
    (newChatClick s t).editing_chat = none ∧
    (newChatClick s2 t).current_chat.id = (newChatClick s t).current_chat.id := by
  refine ⟨rfl, ?_, ?_, rfl, ?_, rfl, rfl⟩
  · show (natToFixed 4 t.year ++ natToFixed 2 t.month ++ natToFixed 2 t.day ++
      natToFixed 2 t.hour ++ natToFixed 2 t.minute ++
      natToFixed 2 t.second).length = 14
    simp [natToFixed_length]
  · show (natToFixed 4 t.year ++ natToFixed 2 t.month ++ natToFixed 2 t.day ++
      natToFixed 2 t.hour ++ natToFixed 2 t.minute ++
      natToFixed 2 t.second).all Char.isDigit = true
    simp only [List.all_append, natToFixed_all_isDigit, Bool.and_self]
  · show ((s.heap ++ [[]]).getD s.heap.length []) = []
    simp [List.getD]

/-- Witness for C9 at a concrete instant and two distinct states. -/
theorem C9_new_chat_id_title_messages_witness :
    (newChatClick ⟨[], [], ⟨"", "", 0⟩, none, FileState.missing⟩
      ⟨2025, 10, 12, 3, 4, 5⟩).current_chat.id =
        formatTimestamp ⟨2025, 10, 12, 3, 4, 5⟩ ∧
    (formatTimestamp ⟨2025, 10, 12, 3, 4, 5⟩).length = 14 := by
  have h := C9_new_chat_id_title_messages
    ⟨[], [], ⟨"", "", 0⟩, none, FileState.missing⟩
    ⟨[[⟨"user", "x"⟩]], [], ⟨"a", "b", 0⟩, some "y", FileState.corrupt⟩
    ⟨2025, 10, 12, 3, 4, 5⟩
    (by decide)
  exact ⟨h.1, h.2.1⟩

/-! ## C1: append-if-absent, by full value -/

/-- C1: for every state, both the auto-save after a successful exchange
(lines 199–204) and the explicit "Save Chat" action (lines 207–212)
append the current record to the store and persist exactly when no
record equal to it by full value (id, title and message sequence, via
`containsValue`) is present; when a value-equal record is present the
store and the file are untouched.  The auto-save half holds for every
current record, a Fresh one included; the explicit half carries the
button's own existence condition (line 207: the button is rendered only
when the current messages list is non-empty) as an inner premise.
Since `containsValue` compares full values, a record that merely shares
the id does not make the test true and so does not suppress the
append. -/
theorem C1_commit_iff_value_absent (s : AppState) (q t : String)
    (hq : q ≠ "") (ht : t ≠ "") :
    (s.heap.getD s.current_chat.msgs [] ≠ [] →
     (containsValue s.heap s.all_chats s.current_chat = true →
        (saveChatClick s).all_chats = s.all_chats ∧
        (saveChatClick s).file = s.file) ∧
     (containsValue s.heap s.all_chats s.current_chat = false →
        (saveChatClick s).all_chats = s.all_chats ++ [s.current_chat] ∧
        (saveChatClick s).file = FileState.content (encodeChats
          ((s.all_chats ++ [s.current_chat]).map (recordValue s.heap)))))
    ∧
    ((containsValue (postExchangeHeap s q t) s.all_chats
        (postExchangeCur s q t) = true →
        (submitQuestion s q true (some t)).all_chats = s.all_chats ∧
        (submitQuestion s q true (some t)).file = s.file) ∧
     (containsValue (postExchangeHeap s q t) s.all_chats
        (postExchangeCur s q t) = false →
        (submitQuestion s q true (some t)).all_chats =
          s.all_chats ++ [postExchangeCur s q t] ∧
        (submitQuestion s q true (some t)).file = FileState.content (encodeChats
          ((s.all_chats ++ [postExchangeCur s q t]).map
            (recordValue (postExchangeHeap s q t)))))) := by
  refine ⟨fun hmsg => ⟨fun hc => ?_, fun hc => ?_⟩, ⟨fun hc => ?_, fun hc => ?_⟩⟩
  · unfold saveChatClick
    rw [if_pos hmsg]
    simp [commitCurrent, hc]
  · unfold saveChatClick
    rw [if_pos hmsg]
    simp [commitCurrent, hc]
  · rw [submitQuestion_success s q t hq ht]
    simp [commitCurrent, hc]
  · rw [submitQuestion_success s q t hq ht]
    simp [commitCurrent, hc]

/-- Witness for C1: on a store with no value-equal record the explicit
save appends the current record; on a store already holding a
value-equal record (same id, title and shared messages cell) it leaves
the store unchanged; and the auto-save after the first exchange on a
Fresh current record appends it (with its derived title) to the empty
store. -/
theorem C1_commit_iff_value_absent_witness :
    (saveChatClick ⟨[[⟨"user", "a"⟩]], [], ⟨"i1", "T", 0⟩, none,
        FileState.missing⟩).all_chats = [] ++ [⟨"i1", "T", 0⟩] ∧
    (saveChatClick ⟨[[⟨"user", "a"⟩]], [⟨"i1", "T", 0⟩], ⟨"i1", "T", 0⟩, none,
        FileState.missing⟩).all_chats = [⟨"i1", "T", 0⟩] ∧
    (submitQuestion ⟨[[]], [], ⟨"i1", "New Chat", 0⟩, none,
        FileState.missing⟩ "q" true (some "r")).all_chats =
      [⟨"i1", "q", 0⟩] := by
  refine ⟨(((C1_commit_iff_value_absent
      ⟨[[⟨"user", "a"⟩]], [], ⟨"i1", "T", 0⟩, none, FileState.missing⟩
      "q" "r" (by decide) (by decide)).1 (by decide)).2 (by decide)).1,
    (((C1_commit_iff_value_absent
      ⟨[[⟨"user", "a"⟩]], [⟨"i1", "T", 0⟩], ⟨"i1", "T", 0⟩, none,
        FileState.missing⟩
      "q" "r" (by decide) (by decide)).1 (by decide)).1 (by decide)).1,
    (((C1_commit_iff_value_absent
      ⟨[[]], [], ⟨"i1", "New Chat", 0⟩, none, FileState.missing⟩
      "q" "r" (by decide) (by decide)).2.2 (by decide)).1).trans (by decide)⟩

/-! ## C2: the first completed exchange on a Fresh record -/

/-- C2 (counterexample): the claim quantifies over every successful
generation call, but `if response:` is Python truthiness: when the call
succeeds with empty returned text `""`, the model turn is not appended
— the fresh record ends the submission with exactly 1 turn (the user
turn) and the placeholder title, not 2 turns and a derived title. -/
theorem C2_counterexample :
    (submitQuestion ⟨[[]], [], ⟨"20250101000000", "New Chat", 0⟩, none,
        FileState.missing⟩ "hi" true (some "")).heap.getD 0 [] =
      [⟨"user", "hi"⟩] ∧
    (submitQuestion ⟨[[]], [], ⟨"20250101000000", "New Chat", 0⟩, none,
        FileState.missing⟩ "hi" true (some "")).current_chat.title =
      "New Chat" := by
  refine ⟨by decide, by decide⟩

/-- C2 (amended): for every non-empty question submitted to a Fresh
record (empty messages list) with the model available, when the
generation call succeeds *with non-empty returned text*, the record
afterwards holds exactly the 2 turns user-question then model-text, and
its title is the first 30 characters of the question followed by `"..."`
when the question is longer than 30 characters and the question itself
otherwise; and (second conjunct, the "exactly when" direction) a
successful exchange on a record that already has messages leaves the
title untouched. -/
theorem C2_first_exchange_two_turns_and_title (s s2 : AppState)
    (q t q2 t2 : String) (hq : q ≠ "") (ht : t ≠ "")
    (haddr : s.current_chat.msgs < s.heap.length)
    (hfresh : s.heap.getD s.current_chat.msgs [] = [])
    (hq2 : q2 ≠ "") (ht2 : t2 ≠ "")
    (haddr2 : s2.current_chat.msgs < s2.heap.length)
    (hactive : s2.heap.getD s2.current_chat.msgs [] ≠ []) :
    (submitQuestion s q true (some t)).heap.getD s.current_chat.msgs [] =
      [⟨"user", q⟩, ⟨"ai", t⟩] ∧
    (submitQuestion s q true (some t)).current_chat.title =
      (if 30 < q.length then q.take 30 ++ "..." else q) ∧
    (submitQuestion s2 q2 true (some t2)).current_chat.title =
      s2.current_chat.title := by
  refine ⟨?_, ?_, ?_⟩
  · rw [submitQuestion_success s q t hq ht]
    show (postExchangeHeap s q t).getD s.current_chat.msgs [] = _
    rw [postExchangeHeap_getD_self s q t haddr, hfresh]
    rfl
  · rw [submitQuestion_success s q t hq ht]
    show (postExchangeCur s q t).title = _
    rw [postExchangeCur_of_fresh s q t haddr hfresh]
    simp [generate_chat_title]
  · rw [submitQuestion_success s2 q2 t2 hq2 ht2]
    show (postExchangeCur s2 q2 t2).title = _
    rw [postExchangeCur_of_nonempty s2 q2 t2 haddr2 hactive]

/-- Witness for C2 (amended) at a concrete fresh record, a long
question, and a concrete active record. -/
theorem C2_first_exchange_two_turns_and_title_witness :
    (submitQuestion ⟨[[]], [], ⟨"20250101000000", "New Chat", 0⟩, none,
        FileState.missing⟩ "aaaaaaaaaaaaaaaaaaaaaaaaaaaaaaaaaaa" true
        (some "fine")).heap.getD 0 [] =
      [⟨"user", "aaaaaaaaaaaaaaaaaaaaaaaaaaaaaaaaaaa"⟩, ⟨"ai", "fine"⟩] ∧
    (submitQuestion ⟨[[]], [], ⟨"20250101000000", "New Chat", 0⟩, none,
        FileState.missing⟩ "aaaaaaaaaaaaaaaaaaaaaaaaaaaaaaaaaaa" true
        (some "fine")).current_chat.title =
      (if 30 < ("aaaaaaaaaaaaaaaaaaaaaaaaaaaaaaaaaaa" : String).length
       then ("aaaaaaaaaaaaaaaaaaaaaaaaaaaaaaaaaaa" : String).take 30 ++ "..."
       else "aaaaaaaaaaaaaaaaaaaaaaaaaaaaaaaaaaa") := by
  have h := C2_first_exchange_two_turns_and_title
    ⟨[[]], [], ⟨"20250101000000", "New Chat", 0⟩, none, FileState.missing⟩
    ⟨[[⟨"user", "x"⟩]], [], ⟨"20250101000001", "x", 0⟩, none, FileState.missing⟩
    "aaaaaaaaaaaaaaaaaaaaaaaaaaaaaaaaaaa" "fine" "y" "z"
    (by decide) (by decide) (by decide) (by decide)
    (by decide) (by decide) (by decide) (by decide)
  exact ⟨h.1, h.2.1⟩

/-! ## C5: what a failed generation call leaves behind -/

/-- C5 (counterexample): the user turn is appended (line 180) *before*
`generate_response` is called, and the `except` branch only reports the
error — it does not undo the append.  On a fresh record, submitting
`"hi"` with the external call raising leaves the current record's
message sequence changed from `[]` to `[user "hi"]`, so the turn is not
aborted "without partial mutation" as claimed. -/
theorem C5_counterexample :
    (submitQuestion ⟨[[]], [], ⟨"20250101000000", "New Chat", 0⟩, none,
        FileState.missing⟩ "hi" true none).heap.getD 0 [] =
      [⟨"user", "hi"⟩] ∧
    (⟨[[]], [], ⟨"20250101000000", "New Chat", 0⟩, none,
        FileState.missing⟩ : AppState).heap.getD 0 [] = [] := by
  refine ⟨by decide, by decide⟩

/-- C5 (amended): when the generation call raises, the store, the
persisted file, the current record object (hence its id and title) and
the editing selection are all unchanged, and no model turn is appended
— but the already-appended user turn remains on the current record's
message list; every other heap cell is untouched. -/
theorem C5_generation_failure_keeps_user_turn (s : AppState) (q : String)
    (hq : q ≠ "") (haddr : s.current_chat.msgs < s.heap.length) :
    (submitQuestion s q true none).all_chats = s.all_chats ∧
    (submitQuestion s q true none).file = s.file ∧
    (submitQuestion s q true none).current_chat = s.current_chat ∧
    (submitQuestion s q true none).editing_chat = s.editing_chat ∧
    (submitQuestion s q true none).heap.getD s.current_chat.msgs [] =
      s.heap.getD s.current_chat.msgs [] ++ [⟨"user", q⟩] ∧
    ∀ a, a ≠ s.current_chat.msgs →
      (submitQuestion s q true none).heap.getD a [] = s.heap.getD a [] := by
  rw [submitQuestion_gen_failed s q hq]
  refine ⟨rfl, rfl, rfl, rfl, appendMsg_getD_self s.heap _ _ haddr,
    fun a ha => appendMsg_getD_ne s.heap _ a _ ha⟩

/-- Witness for C5 (amended) at a concrete state. -/
theorem C5_generation_failure_keeps_user_turn_witness :
    (submitQuestion ⟨[[⟨"user", "old"⟩, ⟨"ai", "resp"⟩]], [⟨"i1", "T", 0⟩],
        ⟨"i1", "T", 0⟩, none, FileState.missing⟩ "hi" true none).heap.getD 0 [] =
      [⟨"user", "old"⟩, ⟨"ai", "resp"⟩] ++ [⟨"user", "hi"⟩] := by
  exact (C5_generation_failure_keeps_user_turn
    ⟨[[⟨"user", "old"⟩, ⟨"ai", "resp"⟩]], [⟨"i1", "T", 0⟩], ⟨"i1", "T", 0⟩,
      none, FileState.missing⟩ "hi" (by decide) (by decide)).2.2.2.2.1

/-! ## C6: selecting a record from history -/

/-- C6 (counterexample): `current_chat = chat.copy()` (line 121) is a
*shallow* dict copy, so the copy shares the stored record's messages
list.  Concretely: select the stored record `⟨"c1","T",0⟩` whose
messages are `[user "a", ai "b"]`, then run one successful exchange on
the current record; the stored original's message sequence — the value
behind heap cell 0, which the untouched store entry still references —
has become 4 turns, although no explicit save happened.  This refutes
the claimed independence of the copy. -/
theorem C6_counterexample :
    (submitQuestion (selectChat ⟨[[⟨"user", "a"⟩, ⟨"ai", "b"⟩], []],
        [⟨"c1", "T", 0⟩], ⟨"x", "New Chat", 1⟩, none, FileState.missing⟩
        ⟨"c1", "T", 0⟩) "q" true (some "r")).all_chats = [⟨"c1", "T", 0⟩] ∧
    (submitQuestion (selectChat ⟨[[⟨"user", "a"⟩, ⟨"ai", "b"⟩], []],
        [⟨"c1", "T", 0⟩], ⟨"x", "New Chat", 1⟩, none, FileState.missing⟩
        ⟨"c1", "T", 0⟩) "q" true (some "r")).heap.getD 0 [] =
      [⟨"user", "a"⟩, ⟨"ai", "b"⟩, ⟨"user", "q"⟩, ⟨"ai", "r"⟩] ∧
    (⟨[[⟨"user", "a"⟩, ⟨"ai", "b"⟩], []], [⟨"c1", "T", 0⟩],
        ⟨"x", "New Chat", 1⟩, none, FileState.missing⟩ : AppState).heap.getD
      0 [] = [⟨"user", "a"⟩, ⟨"ai", "b"⟩] := by
  refine ⟨by decide, by decide, by decide⟩

/-- C6 (amended): selecting a stored record replaces the current record
with a value-equal shallow copy and clears the editing selection, but
the copy shares the stored record's messages list: a subsequent
successful exchange appends the new turns to that shared list, so the
stored original's message sequence changes too (while the store's
record objects — in particular the stored title field — and the
persisted file stay as they were, the membership test finding the
mutated record still present by value). -/
theorem C6_select_shares_messages (s : AppState) (r : RecordObj)
    (q t : String) (hmem : r ∈ s.all_chats) (hq : q ≠ "") (ht : t ≠ "")
    (haddr : r.msgs < s.heap.length)
    (hne : s.heap.getD r.msgs [] ≠ []) :
    (selectChat s r).current_chat = r ∧
    recordValue (selectChat s r).heap (selectChat s r).current_chat =
      recordValue s.heap r ∧
    (selectChat s r).editing_chat = none ∧
    (selectChat s r).all_chats = s.all_chats ∧
    (selectChat s r).heap = s.heap ∧
    (submitQuestion (selectChat s r) q true (some t)).all_chats =
      s.all_chats ∧
    (submitQuestion (selectChat s r) q true (some t)).file = s.file ∧
    (submitQuestion (selectChat s r) q true (some t)).heap.getD r.msgs [] =
      s.heap.getD r.msgs [] ++ [⟨"user", q⟩, ⟨"ai", t⟩] := by
  have hcur : postExchangeCur (selectChat s r) q t = r :=
    postExchangeCur_of_nonempty (selectChat s r) q t haddr hne
  have hcont : containsValue (postExchangeHeap (selectChat s r) q t)
      (selectChat s r).all_chats (postExchangeCur (selectChat s r) q t) =
      true := by
    rw [hcur]
    exact containsValue_of_mem _ _ _ hmem
  refine ⟨rfl, rfl, rfl, rfl, rfl, ?_, ?_, ?_⟩
  · rw [submitQuestion_success _ q t hq ht]
    show (commitCurrent _ _ _ _).1 = _
    unfold commitCurrent
    rw [if_pos hcont]
    rfl
  · rw [submitQuestion_success _ q t hq ht]
    show (commitCurrent _ _ _ _).2 = _
    unfold commitCurrent
    rw [if_pos hcont]
    rfl
  · rw [submitQuestion_success _ q t hq ht]
    exact postExchangeHeap_getD_self (selectChat s r) q t haddr

/-- Witness for C6 (amended) at a concrete state with one stored
record. -/
theorem C6_select_shares_messages_witness :
    (submitQuestion (selectChat ⟨[[⟨"user", "a"⟩, ⟨"ai", "b"⟩], []],
        [⟨"c1", "T", 0⟩], ⟨"x", "New Chat", 1⟩, none, FileState.missing⟩
        ⟨"c1", "T", 0⟩) "q2" true (some "r2")).heap.getD 0 [] =
      [⟨"user", "a"⟩, ⟨"ai", "b"⟩] ++ [⟨"user", "q2"⟩, ⟨"ai", "r2"⟩] := by
  exact (C6_select_shares_messages
    ⟨[[⟨"user", "a"⟩, ⟨"ai", "b"⟩], []], [⟨"c1", "T", 0⟩],
      ⟨"x", "New Chat", 1⟩, none, FileState.missing⟩
    ⟨"c1", "T", 0⟩ "q2" "r2" (by decide) (by decide) (by decide)
    (by decide) (by decide)).2.2.2.2.2.2.2

/-! ## C7: saving an edit rewrites exactly the first record with the
target id -/

theorem findIdx_first_hit_from (p : RecordObj → Bool) (pre post : List RecordObj)
    (tgt : RecordObj) (hpre : ∀ c ∈ pre, p c = false) (htgt : p tgt = true) :
    ∀ i, List.findIdx? p (pre ++ tgt :: post) i = some (pre.length + i) := by
  induction pre with
  | nil =>
    intro i
    simp [List.findIdx?, htgt]
  | cons c rest ih =>
    intro i
    have hc := hpre c (by simp)
    have hrest : List.findIdx? p (rest.append (tgt :: post)) (i + 1) =
        some (rest.length + (i + 1)) :=
      ih (fun x hx => hpre x (List.mem_cons_of_mem c hx)) (i + 1)
    simp only [List.cons_append, List.findIdx?, hc, Bool.false_eq_true,
      if_false, hrest, List.length_cons, Option.some.injEq]
    omega

theorem findIdx_first_hit (p : RecordObj → Bool) (pre post : List RecordObj)
    (tgt : RecordObj) (hpre : ∀ c ∈ pre, p c = false) (htgt : p tgt = true) :
    (pre ++ tgt :: post).findIdx? p = some pre.length := by
  simpa using findIdx_first_hit_from p pre post tgt hpre htgt 0

theorem set_at_middle (pre post : List RecordObj) (tgt x : RecordObj) :
    (pre ++ tgt :: post).set pre.length x = pre ++ x :: post := by
  induction pre with
  | nil => rfl
  | cons c rest ih => simp [ih]

theorem getD_at_middle (pre post : List RecordObj) (tgt d : RecordObj) :
    (pre ++ tgt :: post).getD pre.length d = tgt := by
  induction pre with
  | nil => rfl
  | cons c rest ih => simpa using ih

theorem recordValue_extend (h : List (List Message)) (x : List Message)
    (c : RecordObj) (hc : c.msgs < h.length) :
    recordValue (h ++ [x]) c = recordValue h c := by
  simp [recordValue, List.getD, List.getElem?_append, hc]

theorem saveChanges_found (s : AppState) (newTitle : String)
    (newMsgs : List Message) (eid : String) (i : Nat)
    (hedit : s.editing_chat = some eid) (hne : eid ≠ "")
    (hfind : s.all_chats.findIdx? (fun c => decide (c.id = eid)) = some i) :
    saveChanges s newTitle newMsgs =
      { s with heap := s.heap ++ [newMsgs],
               all_chats := s.all_chats.set i
                 { s.all_chats.getD i ⟨"", "", 0⟩ with
                   title := newTitle, msgs := s.heap.length },
               file := FileState.content (encodeChats
                 ((s.all_chats.set i
                   { s.all_chats.getD i ⟨"", "", 0⟩ with
                     title := newTitle, msgs := s.heap.length }).map
                   (recordValue (s.heap ++ [newMsgs])))),
               editing_chat := none } := by
  simp [saveChanges, hedit, hne, hfind]

/-- C7: when the editing target id is present in the store (the store
splits as `pre ++ tgt :: post` with `tgt` the first record carrying the
id), "Save Changes" rewrites exactly that record's title and messages
(the messages now referencing a fresh heap cell holding the staged
list), leaves every other stored record — object and value — unchanged,
persists the full store and exits the editing state. -/
theorem C7_save_changes_updates_only_target (s : AppState)
    (pre post : List RecordObj) (tgt : RecordObj) (eid newTitle : String)
    (newMsgs : List Message)
    (hs : s.all_chats = pre ++ tgt :: post)
    (hedit : s.editing_chat = some eid) (hne : eid ≠ "")
    (hid : tgt.id = eid)
    (hpre : ∀ c ∈ pre, c.id ≠ eid)
    (hwf : ∀ r ∈ s.all_chats, r.msgs < s.heap.length) :
    (saveChanges s newTitle newMsgs).all_chats =
      pre ++ { tgt with title := newTitle, msgs := s.heap.length } :: post ∧
    (saveChanges s newTitle newMsgs).heap = s.heap ++ [newMsgs] ∧
    recordValue (saveChanges s newTitle newMsgs).heap
      { tgt with title := newTitle, msgs := s.heap.length } =
      ⟨tgt.id, newTitle, newMsgs⟩ ∧
    (saveChanges s newTitle newMsgs).editing_chat = none ∧
    (saveChanges s newTitle newMsgs).file = FileState.content (encodeChats
      ((pre ++ { tgt with title := newTitle, msgs := s.heap.length } :: post).map
        (recordValue (s.heap ++ [newMsgs])))) ∧
    (∀ c ∈ pre, recordValue (saveChanges s newTitle newMsgs).heap c =
      recordValue s.heap c) ∧
    (∀ c ∈ post, recordValue (saveChanges s newTitle newMsgs).heap c =
      recordValue s.heap c) := by
  have hfind : s.all_chats.findIdx? (fun c => decide (c.id = eid)) =
      some pre.length := by
    rw [hs]
    apply findIdx_first_hit
    · intro c hc
      simp [hpre c hc]
    · simp [hid]
  have hred := saveChanges_found s newTitle newMsgs eid pre.length hedit hne hfind
  have hgetD : s.all_chats.getD pre.length ⟨"", "", 0⟩ = tgt := by
    rw [hs]; exact getD_at_middle pre post tgt _
  have hset : s.all_chats.set pre.length
      { tgt with title := newTitle, msgs := s.heap.length } =
      pre ++ { tgt with title := newTitle, msgs := s.heap.length } :: post := by
    rw [hs]; exact set_at_middle pre post tgt _
  rw [hred, hgetD]
  refine ⟨hset, rfl, ?_, rfl, by rw [hset], ?_, ?_⟩
  · simp [recordValue, List.getD]
  · intro c hc
    exact recordValue_extend s.heap newMsgs c
      (hwf c (by rw [hs]; exact List.mem_append_left _ hc))
  · intro c hc
    exact recordValue_extend s.heap newMsgs c
      (hwf c (by rw [hs]; exact List.mem_append_right _ (List.mem_cons_of_mem _ hc)))

/-- Witness for C7 at a concrete two-record store: editing `"i2"`
rewrites the second record and leaves the first untouched. -/
theorem C7_save_changes_updates_only_target_witness :
    (saveChanges ⟨[[⟨"user", "a"⟩], [⟨"user", "b"⟩]],
        [⟨"i1", "T1", 0⟩, ⟨"i2", "T2", 1⟩], ⟨"x", "New Chat", 0⟩,
        some "i2", FileState.missing⟩ "T2edit"
        [⟨"user", "b2"⟩]).all_chats =
      [⟨"i1", "T1", 0⟩] ++ ⟨"i2", "T2edit", 2⟩ :: [] ∧
    (saveChanges ⟨[[⟨"user", "a"⟩], [⟨"user", "b"⟩]],
        [⟨"i1", "T1", 0⟩, ⟨"i2", "T2", 1⟩], ⟨"x", "New Chat", 0⟩,
        some "i2", FileState.missing⟩ "T2edit"
        [⟨"user", "b2"⟩]).editing_chat = none := by
  have h := C7_save_changes_updates_only_target
    ⟨[[⟨"user", "a"⟩], [⟨"user", "b"⟩]],
      [⟨"i1", "T1", 0⟩, ⟨"i2", "T2", 1⟩], ⟨"x", "New Chat", 0⟩,
      some "i2", FileState.missing⟩
    [⟨"i1", "T1", 0⟩] [] ⟨"i2", "T2", 1⟩ "i2" "T2edit" [⟨"user", "b2"⟩]
    (by decide) (by decide) (by decide) (by decide) (by decide) (by decide)
  exact ⟨h.1, h.2.2.2.1⟩

/-! ## C10: a committed shallow copy suppresses every later save -/

/-- C10: once the current record was committed to the store (the
appended `current_chat.copy()` shares the messages address, so a
value-equal record object — here `s.current_chat` itself — is a store
member) and, as every committed record, has a non-empty messages list,
every later successful exchange mutates the shared list in place: the
current record stays value-equal to its copy in the store, the
membership test finds it present, no append happens and `save_chats` is
not called — neither by the auto-save nor by a following explicit
"Save Chat" click — so the file never receives the new turns.  The
final conjuncts show the situation reproduces itself, so the same holds
for every subsequent exchange. -/
theorem C10_committed_copy_never_repersisted (s : AppState) (q t : String)
    (hq : q ≠ "") (ht : t ≠ "")
    (haddr : s.current_chat.msgs < s.heap.length)
    (hmem : s.current_chat ∈ s.all_chats)
    (hne : s.heap.getD s.current_chat.msgs [] ≠ []) :
    (submitQuestion s q true (some t)).all_chats = s.all_chats ∧
    (submitQuestion s q true (some t)).file = s.file ∧
    (submitQuestion s q true (some t)).current_chat = s.current_chat ∧
    (submitQuestion s q true (some t)).heap.getD s.current_chat.msgs [] =
      s.heap.getD s.current_chat.msgs [] ++ [⟨"user", q⟩, ⟨"ai", t⟩] ∧
    (saveChatClick (submitQuestion s q true (some t))).all_chats =
      s.all_chats ∧
    (saveChatClick (submitQuestion s q true (some t))).file = s.file ∧
    (submitQuestion s q true (some t)).current_chat ∈
      (submitQuestion s q true (some t)).all_chats ∧
    (submitQuestion s q true (some t)).current_chat.msgs <
      (submitQuestion s q true (some t)).heap.length ∧
    (submitQuestion s q true (some t)).heap.getD
      (submitQuestion s q true (some t)).current_chat.msgs [] ≠ [] := by
  have hcur1 := postExchangeCur_of_nonempty s q t haddr hne
  have hcont : containsValue (postExchangeHeap s q t) s.all_chats
      s.current_chat = true := containsValue_of_mem _ _ _ hmem
  have hcommit : commitCurrent (postExchangeHeap s q t) s.all_chats
      s.current_chat s.file = (s.all_chats, s.file) := by
    unfold commitCurrent
    rw [if_pos hcont]
  have hsub : submitQuestion s q true (some t) =
      { heap := postExchangeHeap s q t, all_chats := s.all_chats,
        current_chat := s.current_chat, editing_chat := s.editing_chat,
        file := s.file } := by
    rw [submitQuestion_success s q t hq ht, hcur1, hcommit]
  have hmsgs : (postExchangeHeap s q t).getD s.current_chat.msgs [] =
      s.heap.getD s.current_chat.msgs [] ++ [⟨"user", q⟩, ⟨"ai", t⟩] :=
    postExchangeHeap_getD_self s q t haddr
  have hne2 : (postExchangeHeap s q t).getD s.current_chat.msgs [] ≠ [] := by
    rw [hmsgs]
    simp
  have hsave : saveChatClick (submitQuestion s q true (some t)) =
      submitQuestion s q true (some t) := by
    rw [hsub]
    unfold saveChatClick
    rw [if_pos hne2, hcommit]
  refine ⟨by rw [hsub], by rw [hsub], by rw [hsub], ?_, ?_, ?_, ?_, ?_, ?_⟩
  · rw [hsub]
    exact hmsgs
  · rw [hsave, hsub]
  · rw [hsave, hsub]
  · rw [hsub]
    exact hmem
  · rw [hsub]
    show s.current_chat.msgs < (postExchangeHeap s q t).length
    rw [postExchangeHeap_length]
    exact haddr
  · rw [hsub]
    exact hne2

/-- Witness for C10 at a concrete state whose store already holds the
shallow copy of the current record: the exchange adds turns in memory
but neither store nor file changes, and a following explicit save is
also a no-op. -/
theorem C10_committed_copy_never_repersisted_witness :
    (submitQuestion ⟨[[⟨"user", "a"⟩, ⟨"ai", "b"⟩]], [⟨"i1", "a", 0⟩],
        ⟨"i1", "a", 0⟩, none,
        save_chats [⟨"i1", "a", [⟨"user", "a"⟩, ⟨"ai", "b"⟩]⟩]⟩
      "q" true (some "r")).file =
      save_chats [⟨"i1", "a", [⟨"user", "a"⟩, ⟨"ai", "b"⟩]⟩] ∧
    (saveChatClick (submitQuestion ⟨[[⟨"user", "a"⟩, ⟨"ai", "b"⟩]],
        [⟨"i1", "a", 0⟩], ⟨"i1", "a", 0⟩, none,
        save_chats [⟨"i1", "a", [⟨"user", "a"⟩, ⟨"ai", "b"⟩]⟩]⟩
      "q" true (some "r"))).file =
      save_chats [⟨"i1", "a", [⟨"user", "a"⟩, ⟨"ai", "b"⟩]⟩] := by
  have h := C10_committed_copy_never_repersisted
    ⟨[[⟨"user", "a"⟩, ⟨"ai", "b"⟩]], [⟨"i1", "a", 0⟩], ⟨"i1", "a", 0⟩, none,
      save_chats [⟨"i1", "a", [⟨"user", "a"⟩, ⟨"ai", "b"⟩]⟩]⟩
    "q" "r" (by decide) (by decide) (by decide) (by decide) (by decide)
  exact ⟨h.2.1, h.2.2.2.2.2.1⟩

end LLMChat
